import Mathlib

/-!
A shallow embedding of the request-validation and persistence pipeline of a
small CRUD backend (a user resource and a product resource, Express + Zod +
Prisma).  Route handlers become pure functions from a store and a request to a
response paired with the new store; the Zod schemas become validation
functions returning Except; the Prisma calls become list operations, with the
P2025 record-not-found signal modelled as an Option.  JS numbers are modelled
as rationals (the schemas only compare and test integrality), and JS strings
as Lean strings.
-/

/-- One Zod issue: a field path and a human-readable message. -/
structure FieldError where
  path : List String
  message : String
deriving DecidableEq

/-- JS whitespace as used by String.prototype.trim (the common cases). -/
def jsWhitespace (c : Char) : Bool :=
  c = ' ' || c = '\t' || c = '\n' || c = '\r'

/-- Embedding of JS String.prototype.trim: drop leading and trailing whitespace. -/
def jsTrim (s : String) : String :=
  ⟨((s.data.dropWhile jsWhitespace).reverse.dropWhile jsWhitespace).reverse⟩

/-- Numeric value of a run of decimal digits. -/
def digitsToNat (l : List Char) : Nat :=
  l.foldl (fun acc c => acc * 10 + (c.toNat - 48)) 0

/-- Embedding of JS parseInt(s, 10): skip leading whitespace, read an optional
sign and then a maximal run of decimal digits; no digits means NaN (none). -/
def jsParseInt (s : String) : Option Int :=
  let l := s.data.dropWhile jsWhitespace
  let sr : Int × List Char :=
    match l with
    | '-' :: t => (-1, t)
    | '+' :: t => (1, t)
    | t => (1, t)
  let ds := sr.2.takeWhile Char.isDigit
  if ds.isEmpty then none else some (sr.1 * (digitsToNat ds : Int))

/-- A persisted user record (id store-assigned, name optional). -/
structure UserRec where
  id : Int
  email : String
  name : Option String
deriving DecidableEq

/-- The user table plus the auto-increment counter. -/
structure UserStore where
  nextId : Int
  recs : List UserRec
deriving DecidableEq

/-- A persisted product record; createdAt is the store-assigned timestamp. -/
structure ProductRec where
  id : Int
  name : String
  category : String
  price : Rat
  stock : Int
  description : Option String
  createdAt : Nat
deriving DecidableEq

/-- The product table plus the auto-increment counter and a clock for createdAt. -/
structure ProductStore where
  nextId : Int
  now : Nat
  recs : List ProductRec
deriving DecidableEq

/-- A JSON body for the user routes: each schema field possibly absent. -/
structure UserBody where
  email : Option String
  name : Option String
deriving DecidableEq

/-- Output of userSchema.parse. -/
structure UserData where
  email : String
  name : Option String
deriving DecidableEq

/-- A JSON body for the product routes: each schema field possibly absent;
numbers arrive as rationals (stock may be non-integral and is checked). -/
structure ProductBody where
  name : Option String
  category : Option String
  price : Option Rat
  stock : Option Rat
  description : Option String
deriving DecidableEq

/-- Output of productSchema.parse (stock coerced to an integer by the check). -/
structure ProductData where
  name : String
  category : String
  price : Rat
  stock : Int
  description : Option String
deriving DecidableEq

/-- Output of productSchema.partial().parse: only the supplied fields. -/
structure ProductPatch where
  name : Option String
  category : Option String
  price : Option Rat
  stock : Option Int
  description : Option String
deriving DecidableEq

/-- The issues carried by a failed field parse (empty for a success). -/
def errsOf {α : Type} : Except (List FieldError) α → List FieldError
  | .error e => e
  | .ok _ => []

/-- A required Zod field: absent yields the Required issue, present runs the
field checks and converts. -/
def parseField {α β : Type} (fld : String) (chk : α → List FieldError)
    (conv : α → β) : Option α → Except (List FieldError) β
  | none => .error [⟨[fld], "Required"⟩]
  | some a => if (chk a).isEmpty then .ok (conv a) else .error (chk a)

/-- An optional field of a .partial() schema: absent is fine, present must
still pass the field checks. -/
def parseFieldOpt {α β : Type} (chk : α → List FieldError)
    (conv : α → β) : Option α → Except (List FieldError) (Option β)
  | none => .ok none
  | some a => if (chk a).isEmpty then .ok (some (conv a)) else .error (chk a)

/-- Checks of z.string().min(3, "Nama produk minimal 3 karakter").max(100). -/
def checkProductName (n : String) : List FieldError :=
  (if n.length < 3 then [⟨["name"], "Nama produk minimal 3 karakter"⟩] else [])
    ++ (if 100 < n.length then [⟨["name"], "String must contain at most 100 characters"⟩] else [])

/-- Check of z.string().min(2, "Kategori wajib diisi"). -/
def checkCategory (c : String) : List FieldError :=
  if c.length < 2 then [⟨["category"], "Kategori wajib diisi"⟩] else []

/-- Check of z.number().positive("Harga harus angka positif"). -/
def checkPrice (p : Rat) : List FieldError :=
  if 0 < p then [] else [⟨["price"], "Harga harus angka positif"⟩]

/-- Checks of z.number().int().nonnegative("Stok tidak boleh negatif"). -/
def checkStock (q : Rat) : List FieldError :=
  (if q.den = 1 then [] else [⟨["stock"], "Expected integer, received float"⟩])
    ++ (if q < 0 then [⟨["stock"], "Stok tidak boleh negatif"⟩] else [])

/-- Check of z.string().min(2) for the optional user name. -/
def checkUserName (n : String) : List FieldError :=
  if n.length < 2 then [⟨["name"], "String must contain at least 2 characters"⟩] else []

/-- Check of z.string().email().  The email format test itself lives inside
the Zod library, outside this repository, so it is taken as a parameter. -/
def checkEmail (emailOk : String → Bool) (e : String) : List FieldError :=
  if emailOk e then [] else [⟨["email"], "Invalid email"⟩]

/-- userSchema.parse: email required and format-checked, name optional with
min length 2; on failure all field issues are reported together. -/
def userSchema (emailOk : String → Bool) (b : UserBody) :
    Except (List FieldError) UserData :=
  match parseField "email" (checkEmail emailOk) id b.email,
      parseFieldOpt checkUserName id b.name with
  | .ok e, .ok n => .ok ⟨e, n⟩
  | re, rn => .error (errsOf re ++ errsOf rn)

/-- idSchema.parse on the :id path parameter: transform by parseInt(·, 10)
and refine by !isNaN with message "Invalid ID". -/
def idSchema (idStr : String) : Except (List FieldError) Int :=
  match jsParseInt idStr with
  | none => .error [⟨["id"], "Invalid ID"⟩]
  | some i => .ok i

/-- productSchema.parse: name, category, price, stock required, description
optional; on failure all field issues are reported together in shape order. -/
def productSchema (b : ProductBody) : Except (List FieldError) ProductData :=
  match parseField "name" checkProductName id b.name,
      parseField "category" checkCategory id b.category,
      parseField "price" checkPrice id b.price,
      parseField "stock" checkStock Rat.num b.stock with
  | .ok n, .ok c, .ok p, .ok st => .ok ⟨n, c, p, st, b.description⟩
  | rn, rc, rp, rs => .error (errsOf rn ++ errsOf rc ++ errsOf rp ++ errsOf rs)

/-- productSchema.partial().parse: every field optional, supplied fields must
still pass their checks. -/
def productSchemaUpd (b : ProductBody) : Except (List FieldError) ProductPatch :=
  match parseFieldOpt checkProductName id b.name,
      parseFieldOpt checkCategory id b.category,
      parseFieldOpt checkPrice id b.price,
      parseFieldOpt checkStock Rat.num b.stock with
  | .ok n, .ok c, .ok p, .ok st => .ok ⟨n, c, p, st, b.description⟩
  | rn, rc, rp, rs => .error (errsOf rn ++ errsOf rc ++ errsOf rp ++ errsOf rs)

/-- Merge the supplied fields of a partial update into an existing record
(Prisma update data: unsupplied columns keep their value). -/
def applyPatch (p : ProductRec) (d : ProductPatch) : ProductRec :=
  ⟨p.id, d.name.getD p.name, d.category.getD p.category, d.price.getD p.price,
    d.stock.getD p.stock, (d.description.orElse fun _ => p.description), p.createdAt⟩

/-- Merge a validated full-schema user body into an existing record: email is
always present in the data, name only when supplied. -/
def applyUserData (u : UserRec) (d : UserData) : UserRec :=
  ⟨u.id, d.email, (d.name.orElse fun _ => u.name)⟩

/-- prisma.user lookup by primary key. -/
def findUser (l : List UserRec) (i : Int) : Option UserRec :=
  l.find? (fun u => u.id == i)

/-- prisma.user.update where id: none models the P2025 record-not-found error. -/
def userUpdateById (l : List UserRec) (i : Int) (d : UserData) :
    Option (UserRec × List UserRec) :=
  match findUser l i with
  | none => none
  | some u => some (applyUserData u d, l.map fun v => if v.id == i then applyUserData v d else v)

/-- prisma.user.delete where id: none models the P2025 record-not-found error. -/
def userDeleteById (l : List UserRec) (i : Int) : Option (List UserRec) :=
  match findUser l i with
  | none => none
  | some _ => some (l.filter fun u => !(u.id == i))

/-- prisma.product lookup by primary key. -/
def findProduct (l : List ProductRec) (i : Int) : Option ProductRec :=
  l.find? (fun p => p.id == i)

/-- prisma.product.update where id: none models the P2025 record-not-found error. -/
def productUpdateById (l : List ProductRec) (i : Int) (d : ProductPatch) :
    Option (ProductRec × List ProductRec) :=
  match findProduct l i with
  | none => none
  | some p => some (applyPatch p d, l.map fun q => if q.id == i then applyPatch q d else q)

/-- prisma.product.delete where id: none models the P2025 record-not-found error. -/
def productDeleteById (l : List ProductRec) (i : Int) : Option (List ProductRec) :=
  match findProduct l i with
  | none => none
  | some _ => some (l.filter fun p => !(p.id == i))

/-- The status discriminator of the product-service response envelope. -/
inductive EnvStatus where
  | success
  | fail
  | error
deriving DecidableEq

/-- The data payload an envelope can carry. -/
inductive EnvData where
  | product (p : ProductRec)
  | products (ps : List ProductRec)
  | stats (totalProducts : Nat) (lowStock : Nat) (totalValue : Rat)
deriving DecidableEq

/-- Shape of a response body as serialized by the handlers.  The user routes
answer with bare records, a bare error list, or a bare error string; the
product routes answer with the uniform envelope. -/
inductive RespBody where
  | empty
  | rawUsers (us : List UserRec)
  | rawUser (u : UserRec)
  | rawErrors (errs : List FieldError)
  | rawError (msg : String)
  | env (status : EnvStatus) (data : Option EnvData) (message : Option String)
      (errors : Option (List FieldError))
deriving DecidableEq

/-- An HTTP response: status code and body. -/
structure Resp where
  code : Nat
  body : RespBody
deriving DecidableEq

/-- Whether a body is wrapped in the uniform envelope. -/
def isEnvelope : RespBody → Bool
  | .env _ _ _ _ => true
  | _ => false

/-- Insert keeping createdAt descending (for orderBy createdAt desc). -/
def insertByCreated (p : ProductRec) : List ProductRec → List ProductRec
  | [] => [p]
  | q :: t => if q.createdAt ≤ p.createdAt then p :: q :: t else q :: insertByCreated p t

/-- findMany orderBy createdAt desc. -/
def sortByCreatedDesc (l : List ProductRec) : List ProductRec :=
  l.foldr insertByCreated []

/-- GET /api/users: findMany, respond 200 with the bare array. -/
def getUsersRoute (s : UserStore) : Resp × UserStore :=
  (⟨200, .rawUsers s.recs⟩, s)

/-- POST /api/users: userSchema.parse, then create; 201 with the bare record,
or 400 with the bare Zod issue list. -/
def postUserRoute (emailOk : String → Bool) (s : UserStore) (b : UserBody) :
    Resp × UserStore :=
  match userSchema emailOk b with
  | .error errs => (⟨400, .rawErrors errs⟩, s)
  | .ok d =>
    let u : UserRec := ⟨s.nextId, d.email, d.name⟩
    (⟨201, .rawUser u⟩, ⟨s.nextId + 1, s.recs ++ [u]⟩)

/-- PUT /api/users/:id: idSchema.parse, then userSchema.parse (the full
schema, not a partial one), then update.  The catch block classifies only
ZodError; the P2025 not-found error falls through to the 500 branch. -/
def putUserRoute (emailOk : String → Bool) (s : UserStore) (idStr : String)
    (b : UserBody) : Resp × UserStore :=
  match idSchema idStr with
  | .error errs => (⟨400, .rawErrors errs⟩, s)
  | .ok i =>
    match userSchema emailOk b with
    | .error errs => (⟨400, .rawErrors errs⟩, s)
    | .ok d =>
      match userUpdateById s.recs i d with
      | none => (⟨500, .rawError "Internal Server Error"⟩, s)
      | some (u, recs) => (⟨200, .rawUser u⟩, ⟨s.nextId, recs⟩)

/-- DELETE /api/users/:id: idSchema.parse, then delete; success is 204 with
no body.  The catch block classifies only ZodError; the P2025 not-found
error falls through to the 500 branch. -/
def deleteUserRoute (s : UserStore) (idStr : String) : Resp × UserStore :=
  match idSchema idStr with
  | .error errs => (⟨400, .rawErrors errs⟩, s)
  | .ok i =>
    match userDeleteById s.recs i with
    | none => (⟨500, .rawError "Internal Server Error"⟩, s)
    | some recs => (⟨204, .empty⟩, ⟨s.nextId, recs⟩)

/-- GET /api/products: findMany orderBy createdAt desc, enveloped. -/
def getProductsRoute (s : ProductStore) : Resp × ProductStore :=
  (⟨200, .env .success (some (.products (sortByCreatedDesc s.recs))) none none⟩, s)

/-- GET /api/stats: count all, count stock < 10, then fetch the
price and stock columns and reduce acc + price * stock over them. -/
def getStatsRoute (s : ProductStore) : Resp × ProductStore :=
  let totalProducts := s.recs.length
  let lowStock := s.recs.countP (fun p => decide (p.stock < 10))
  let all := s.recs.map (fun p => (p.price, p.stock))
  let totalValue := all.foldl (fun acc pr => acc + pr.1 * (pr.2 : Rat)) 0
  (⟨200, .env .success (some (.stats totalProducts lowStock totalValue)) none none⟩, s)

/-- POST /api/products: productSchema.parse, then trim the name, then create;
201 with the created record, or 400 with status fail and the issue list. -/
def postProductRoute (s : ProductStore) (b : ProductBody) : Resp × ProductStore :=
  match productSchema b with
  | .error errs => (⟨400, .env .fail none none (some errs)⟩, s)
  | .ok d =>
    let newProduct : ProductRec :=
      ⟨s.nextId, jsTrim d.name, d.category, d.price, d.stock, d.description, s.now⟩
    (⟨201, .env .success (some (.product newProduct)) none none⟩,
      ⟨s.nextId + 1, s.now + 1, s.recs ++ [newProduct]⟩)

/-- PUT /api/products/:id: productSchema.partial().parse on the body, then
update where id: parseInt(id).  A NaN id makes the Prisma client reject the
query with an error that is neither P2025 nor a ZodError, so it lands in the
500 branch; P2025 yields 404; ZodError yields 400. -/
def putProductRoute (s : ProductStore) (idStr : String) (b : ProductBody) :
    Resp × ProductStore :=
  match productSchemaUpd b with
  | .error errs => (⟨400, .env .fail none none (some errs)⟩, s)
  | .ok d =>
    match jsParseInt idStr with
    | none => (⟨500, .env .error none (some "Gagal update produk") none⟩, s)
    | some i =>
      match productUpdateById s.recs i d with
      | none => (⟨404, .env .fail none (some "Produk tidak ditemukan") none⟩, s)
      | some (p, recs) =>
        (⟨200, .env .success (some (.product p)) none none⟩, ⟨s.nextId, s.now, recs⟩)

/-- DELETE /api/products/:id: delete where id: parseInt(id); success answers
200 with a confirmation message; P2025 yields 404; a NaN id rejects inside
the Prisma client and lands in the 500 branch. -/
def deleteProductRoute (s : ProductStore) (idStr : String) : Resp × ProductStore :=
  match jsParseInt idStr with
  | none => (⟨500, .env .error none (some "Gagal menghapus produk") none⟩, s)
  | some i =>
    match productDeleteById s.recs i with
    | none => (⟨404, .env .fail none (some "Produk tidak ditemukan") none⟩, s)
    | some recs =>
      (⟨200, .env .success none (some "Produk berhasil dihapus") none⟩, ⟨s.nextId, s.now, recs⟩)

theorem checkProductName_eq_nil {n : String} :
    checkProductName n = [] ↔ 3 ≤ n.length ∧ n.length ≤ 100 := by
  simp only [checkProductName]
  split <;> split <;> simp <;> omega

theorem checkCategory_eq_nil {c : String} :
    checkCategory c = [] ↔ 2 ≤ c.length := by
  simp only [checkCategory]
  split <;> simp <;> omega

theorem checkPrice_eq_nil {p : Rat} : checkPrice p = [] ↔ 0 < p := by
  simp only [checkPrice]
  split <;> simp_all

theorem checkStock_eq_nil {q : Rat} : checkStock q = [] ↔ q.den = 1 ∧ 0 ≤ q := by
  simp only [checkStock]
  split <;> split <;> simp_all

theorem checkUserName_eq_nil {n : String} :
    checkUserName n = [] ↔ 2 ≤ n.length := by
  simp only [checkUserName]
  split <;> simp <;> omega

theorem parseField_ok {α β : Type} {fld : String} {chk : α → List FieldError}
    {conv : α → β} {o : Option α} {b : β}
    (h : parseField fld chk conv o = .ok b) :
    ∃ a, o = some a ∧ chk a = [] ∧ b = conv a := by
  cases o with
  | none => simp [parseField] at h
  | some a =>
    simp only [parseField] at h
    split at h
    · rename_i hcond
      cases h
      refine ⟨a, rfl, ?_, rfl⟩
      simpa using hcond
    · cases h

theorem parseFieldOpt_ok {α β : Type} {chk : α → List FieldError}
    {conv : α → β} {o : Option α} {ob : Option β}
    (h : parseFieldOpt chk conv o = .ok ob) :
    (o = none ∧ ob = none) ∨ ∃ a, o = some a ∧ chk a = [] ∧ ob = some (conv a) := by
  cases o with
  | none =>
    simp only [parseFieldOpt] at h
    cases h
    exact .inl ⟨rfl, rfl⟩
  | some a =>
    simp only [parseFieldOpt] at h
    split at h
    · rename_i hcond
      cases h
      refine .inr ⟨a, rfl, ?_, rfl⟩
      simpa using hcond
    · cases h

theorem productSchema_ok {b : ProductBody} {d : ProductData}
    (h : productSchema b = .ok d) :
    parseField "name" checkProductName id b.name = .ok d.name ∧
    parseField "category" checkCategory id b.category = .ok d.category ∧
    parseField "price" checkPrice id b.price = .ok d.price ∧
    parseField "stock" checkStock Rat.num b.stock = .ok d.stock ∧
    d.description = b.description := by
  unfold productSchema at h
  cases hn : parseField "name" checkProductName id b.name <;>
    cases hc : parseField "category" checkCategory id b.category <;>
    cases hp : parseField "price" checkPrice id b.price <;>
    cases hs : parseField "stock" checkStock Rat.num b.stock <;>
    rw [hn, hc, hp, hs] at h <;> cases h <;> simp_all

theorem productSchemaUpd_ok {b : ProductBody} {d : ProductPatch}
    (h : productSchemaUpd b = .ok d) :
    parseFieldOpt checkProductName id b.name = .ok d.name ∧
    parseFieldOpt checkCategory id b.category = .ok d.category ∧
    parseFieldOpt checkPrice id b.price = .ok d.price ∧
    parseFieldOpt checkStock Rat.num b.stock = .ok d.stock ∧
    d.description = b.description := by
  unfold productSchemaUpd at h
  cases hn : parseFieldOpt checkProductName id b.name <;>
    cases hc : parseFieldOpt checkCategory id b.category <;>
    cases hp : parseFieldOpt checkPrice id b.price <;>
    cases hs : parseFieldOpt checkStock Rat.num b.stock <;>
    rw [hn, hc, hp, hs] at h <;> cases h <;> simp_all

theorem userSchema_ok {emailOk : String → Bool} {b : UserBody} {d : UserData}
    (h : userSchema emailOk b = .ok d) :
    parseField "email" (checkEmail emailOk) id b.email = .ok d.email ∧
    parseFieldOpt checkUserName id b.name = .ok d.name := by
  unfold userSchema at h
  cases he : parseField "email" (checkEmail emailOk) id b.email <;>
    cases hn : parseFieldOpt checkUserName id b.name <;>
    rw [he, hn] at h <;> cases h <;> simp_all

theorem productSchema_ok_fields {b : ProductBody} {d : ProductData}
    (h : productSchema b = .ok d) :
    0 < d.price ∧ 0 ≤ d.stock ∧ 3 ≤ d.name.length ∧ d.name.length ≤ 100 ∧
      b.name = some d.name := by
  obtain ⟨hn, _, hp, hs, _⟩ := productSchema_ok h
  obtain ⟨a, ha, hchk, hval⟩ := parseField_ok hp
  obtain ⟨a2, ha2, hchk2, hval2⟩ := parseField_ok hs
  obtain ⟨a3, ha3, hchk3, hval3⟩ := parseField_ok hn
  refine ⟨?_, ?_, ?_, ?_, ?_⟩
  · rw [hval]; exact checkPrice_eq_nil.mp hchk
  · rw [hval2]; exact Rat.num_nonneg.mpr (checkStock_eq_nil.mp hchk2).2
  · rw [hval3]; exact (checkProductName_eq_nil.mp hchk3).1
  · rw [hval3]; exact (checkProductName_eq_nil.mp hchk3).2
  · rw [ha3, hval3]; rfl

theorem productSchemaUpd_ok_fields {b : ProductBody} {d : ProductPatch}
    (h : productSchemaUpd b = .ok d) :
    (∀ v, d.price = some v → 0 < v) ∧ (∀ v, d.stock = some v → 0 ≤ v) ∧
      (∀ n, d.name = some n → 3 ≤ n.length ∧ n.length ≤ 100) := by
  obtain ⟨hn, _, hp, hs, _⟩ := productSchemaUpd_ok h
  refine ⟨?_, ?_, ?_⟩
  · intro v hv
    rcases parseFieldOpt_ok hp with ⟨_, h2⟩ | ⟨a, _, hchk, h2⟩
    · rw [h2] at hv; cases hv
    · rw [h2] at hv; cases hv; exact checkPrice_eq_nil.mp hchk
  · intro v hv
    rcases parseFieldOpt_ok hs with ⟨_, h2⟩ | ⟨a, _, hchk, h2⟩
    · rw [h2] at hv; cases hv
    · rw [h2] at hv; cases hv
      exact Rat.num_nonneg.mpr (checkStock_eq_nil.mp hchk).2
  · intro n hv
    rcases parseFieldOpt_ok hn with ⟨_, h2⟩ | ⟨a, _, hchk, h2⟩
    · rw [h2] at hv; cases hv
    · rw [h2] at hv; cases hv; exact checkProductName_eq_nil.mp hchk

theorem productSchema_not_ok_of_price {b : ProductBody} {pr : Rat}
    (hb : b.price = some pr) (hle : pr ≤ 0) {d : ProductData} :
    productSchema b ≠ .ok d := by
  intro h
  obtain ⟨_, _, hp, _, _⟩ := productSchema_ok h
  obtain ⟨a, ha, hchk, _⟩ := parseField_ok hp
  rw [hb] at ha
  cases ha
  exact absurd (checkPrice_eq_nil.mp hchk) (not_lt.mpr hle)

theorem productSchema_not_ok_of_stock {b : ProductBody} {st : Rat}
    (hb : b.stock = some st) (hbad : st < 0 ∨ st.den ≠ 1) {d : ProductData} :
    productSchema b ≠ .ok d := by
  intro h
  obtain ⟨_, _, _, hs, _⟩ := productSchema_ok h
  obtain ⟨a, ha, hchk, _⟩ := parseField_ok hs
  rw [hb] at ha
  cases ha
  obtain ⟨hden, hnn⟩ := checkStock_eq_nil.mp hchk
  rcases hbad with hlt | hden2
  · exact absurd hnn (not_le.mpr hlt)
  · exact hden2 hden

theorem productSchemaUpd_not_ok_of_price {b : ProductBody} {pr : Rat}
    (hb : b.price = some pr) (hle : pr ≤ 0) {d : ProductPatch} :
    productSchemaUpd b ≠ .ok d := by
  intro h
  obtain ⟨_, _, hp, _, _⟩ := productSchemaUpd_ok h
  rcases parseFieldOpt_ok hp with ⟨hnone, _⟩ | ⟨a, ha, hchk, _⟩
  · rw [hb] at hnone; cases hnone
  · rw [hb] at ha
    cases ha
    exact absurd (checkPrice_eq_nil.mp hchk) (not_lt.mpr hle)

theorem productSchemaUpd_not_ok_of_stock {b : ProductBody} {st : Rat}
    (hb : b.stock = some st) (hbad : st < 0 ∨ st.den ≠ 1) {d : ProductPatch} :
    productSchemaUpd b ≠ .ok d := by
  intro h
  obtain ⟨_, _, _, hs, _⟩ := productSchemaUpd_ok h
  rcases parseFieldOpt_ok hs with ⟨hnone, _⟩ | ⟨a, ha, hchk, _⟩
  · rw [hb] at hnone; cases hnone
  · rw [hb] at ha
    cases ha
    obtain ⟨hden, hnn⟩ := checkStock_eq_nil.mp hchk
    rcases hbad with hlt | hden2
    · exact absurd hnn (not_le.mpr hlt)
    · exact hden2 hden

theorem length_dropWhile_le {α : Type} (p : α → Bool) (l : List α) :
    (l.dropWhile p).length ≤ l.length := by
  induction l with
  | nil => simp
  | cons a t ih =>
    rw [List.dropWhile_cons]
    split
    · exact Nat.le_succ_of_le ih
    · simp

theorem jsTrim_length_le (s : String) : (jsTrim s).length ≤ s.length := by
  show (((s.data.dropWhile jsWhitespace).reverse.dropWhile jsWhitespace).reverse).length
      ≤ s.data.length
  rw [List.length_reverse]
  calc ((s.data.dropWhile jsWhitespace).reverse.dropWhile jsWhitespace).length
      ≤ (s.data.dropWhile jsWhitespace).reverse.length := length_dropWhile_le _ _
    _ = (s.data.dropWhile jsWhitespace).length := List.length_reverse _
    _ ≤ s.data.length := length_dropWhile_le _ _

theorem foldl_mul_sum (l : List (Rat × Int)) (a : Rat) :
    l.foldl (fun acc pr => acc + pr.1 * (pr.2 : Rat)) a
      = a + (l.map (fun pr => pr.1 * (pr.2 : Rat))).sum := by
  induction l generalizing a with
  | nil => simp
  | cons x t ih => simp [List.foldl_cons, ih, add_assoc]

theorem applyPatch_id (p : ProductRec) (d : ProductPatch) :
    (applyPatch p d).id = p.id := rfl

theorem find?_map_applyPatch (l : List ProductRec) (i : Int) (d : ProductPatch)
    (p : ProductRec) (h : l.find? (fun q => q.id == i) = some p) :
    (l.map fun q => if q.id == i then applyPatch q d else q).find?
      (fun q => q.id == i) = some (applyPatch p d) := by
  induction l with
  | nil => simp at h
  | cons q t ih =>
    by_cases hq : (q.id == i) = true
    · rw [@List.find?_cons_of_pos ProductRec (fun r => r.id == i) q t hq] at h
      cases h
      rw [List.map_cons, if_pos hq]
      have h2 : ((applyPatch p d).id == i) = true := hq
      exact @List.find?_cons_of_pos ProductRec (fun r => r.id == i)
        (applyPatch p d) (t.map fun r => if r.id == i then applyPatch r d else r) h2
    · rw [@List.find?_cons_of_neg ProductRec (fun r => r.id == i) q t hq] at h
      rw [List.map_cons, if_neg hq]
      rw [@List.find?_cons_of_neg ProductRec (fun r => r.id == i) q
        (t.map fun r => if r.id == i then applyPatch r d else r) hq]
      exact ih h

theorem findProduct_filter_ne (l : List ProductRec) (i : Int) :
    findProduct (l.filter fun p => !(p.id == i)) i = none := by
  rw [findProduct, List.find?_eq_none]
  intro p hp
  have := (List.mem_filter.mp hp).2
  simp_all

theorem findUser_filter_ne (l : List UserRec) (i : Int) :
    findUser (l.filter fun u => !(u.id == i)) i = none := by
  rw [findUser, List.find?_eq_none]
  intro u hu
  have := (List.mem_filter.mp hu).2
  simp_all

/-- C8: GET /api/stats responds 200 with exactly totalProducts = the count of
all products, lowStock = the count of products with stock < 10, and
totalValue = the sum over all products of price * stock, computed from the
current records, and the store is unchanged. -/
theorem C8_stats_fresh (s : ProductStore) :
    (getStatsRoute s).1.code = 200 ∧
    (getStatsRoute s).1.body = .env .success (some (.stats s.recs.length
      ((s.recs.filter (fun p => decide (p.stock < 10))).length)
      ((s.recs.map (fun p => p.price * (p.stock : Rat))).sum))) none none ∧
    (getStatsRoute s).2 = s := by
  refine ⟨rfl, ?_, rfl⟩
  have h1 : s.recs.countP (fun p => decide (p.stock < 10))
      = (s.recs.filter (fun p => decide (p.stock < 10))).length :=
    List.countP_eq_length_filter _ _
  have h2 : (s.recs.map (fun p => (p.price, p.stock))).foldl
      (fun acc pr => acc + pr.1 * (pr.2 : Rat)) 0
      = (s.recs.map (fun p => p.price * (p.stock : Rat))).sum := by
    rw [foldl_mul_sum, zero_add, List.map_map]
    rfl
  simp only [getStatsRoute, h1, h2]

/-- C9: a successful DELETE of a user responds 204 with an empty body; a
successful DELETE of a product responds 200 with a confirmation message. -/
theorem C9_delete_asymmetry :
    (∀ (s : UserStore) (idStr : String) (i : Int) (u : UserRec),
      jsParseInt idStr = some i → findUser s.recs i = some u →
      (deleteUserRoute s idStr).1.code = 204 ∧
      (deleteUserRoute s idStr).1.body = .empty) ∧
    (∀ (s : ProductStore) (idStr : String) (i : Int) (p : ProductRec),
      jsParseInt idStr = some i → findProduct s.recs i = some p →
      (deleteProductRoute s idStr).1.code = 200 ∧
      (deleteProductRoute s idStr).1.body
        = .env .success none (some "Produk berhasil dihapus") none) := by
  constructor
  · intro s idStr i u hid hfind
    simp [deleteUserRoute, idSchema, userDeleteById, hid, hfind]
  · intro s idStr i p hid hfind
    simp [deleteProductRoute, productDeleteById, hid, hfind]

/-- C9 witness: concrete successful deletes for both resources. -/
theorem C9_delete_asymmetry_witness :
    (deleteUserRoute ⟨2, [⟨1, "a@b.c", none⟩]⟩ "1").1.code = 204 ∧
    (deleteProductRoute ⟨2, 5, [⟨1, "Widget", "Tools", 10, 1, none, 0⟩]⟩ "1").1.code = 200 := by
  constructor
  · exact (C9_delete_asymmetry.1 ⟨2, [⟨1, "a@b.c", none⟩]⟩ "1" 1 ⟨1, "a@b.c", none⟩
      (by decide) (by decide)).1
  · exact (C9_delete_asymmetry.2 ⟨2, 5, [⟨1, "Widget", "Tools", 10, 1, none, 0⟩]⟩ "1" 1
      ⟨1, "Widget", "Tools", 10, 1, none, 0⟩ (by decide) (by decide)).1

/-- C10: PUT of a product with an empty JSON object body passes the partial
validation with no field error, responds 200 with the record unchanged, and
leaves the store unchanged. -/
theorem C10_empty_body_update (s : ProductStore) (idStr : String) (i : Int)
    (p : ProductRec) (hid : jsParseInt idStr = some i)
    (hfind : findProduct s.recs i = some p) :
    productSchemaUpd ⟨none, none, none, none, none⟩ = .ok ⟨none, none, none, none, none⟩ ∧
    (putProductRoute s idStr ⟨none, none, none, none, none⟩).1.code = 200 ∧
    (putProductRoute s idStr ⟨none, none, none, none, none⟩).1.body
      = .env .success (some (.product p)) none none ∧
    (putProductRoute s idStr ⟨none, none, none, none, none⟩).2 = s := by
  have hap : ∀ q : ProductRec, applyPatch q ⟨none, none, none, none, none⟩ = q := by
    intro q
    rfl
  have hmap : (s.recs.map fun q =>
      if q.id == i then applyPatch q ⟨none, none, none, none, none⟩ else q) = s.recs := by
    have hfn : ∀ q : ProductRec,
        (if q.id == i then applyPatch q ⟨none, none, none, none, none⟩ else q) = q := by
      intro q
      split <;> simp [hap]
    calc (s.recs.map fun q =>
        if q.id == i then applyPatch q ⟨none, none, none, none, none⟩ else q)
        = s.recs.map id := List.map_congr_left (fun q _ => hfn q)
      _ = s.recs := List.map_id _
  have hp : productSchemaUpd ⟨none, none, none, none, none⟩
      = .ok ⟨none, none, none, none, none⟩ := rfl
  refine ⟨rfl, ?_, ?_, ?_⟩ <;>
    simp [putProductRoute, hp, productUpdateById, hid, hfind, hap, ite_self]

/-- C10 witness: a concrete empty-body update leaving the record intact. -/
theorem C10_empty_body_update_witness :
    (putProductRoute ⟨2, 5, [⟨1, "Widget", "Tools", 10, 7, none, 0⟩]⟩ "1"
      ⟨none, none, none, none, none⟩).1.code = 200 ∧
    (putProductRoute ⟨2, 5, [⟨1, "Widget", "Tools", 10, 7, none, 0⟩]⟩ "1"
      ⟨none, none, none, none, none⟩).2 = ⟨2, 5, [⟨1, "Widget", "Tools", 10, 7, none, 0⟩]⟩ := by
  have h := C10_empty_body_update ⟨2, 5, [⟨1, "Widget", "Tools", 10, 7, none, 0⟩]⟩ "1" 1
    ⟨1, "Widget", "Tools", 10, 7, none, 0⟩ (by decide) (by decide)
  exact ⟨h.2.1, h.2.2.2⟩

/-- C5: a PUT on an existing product with a validated partial body responds
200 with the merged record; every unsupplied field keeps its prior value,
every supplied field takes the supplied value, and the merged record is what
the store then holds at that id. -/
theorem C5_update_frame (s : ProductStore) (idStr : String) (i : Int)
    (b : ProductBody) (d : ProductPatch) (p : ProductRec)
    (hid : jsParseInt idStr = some i)
    (hfind : findProduct s.recs i = some p)
    (hparse : productSchemaUpd b = .ok d) :
    (putProductRoute s idStr b).1.code = 200 ∧
    (putProductRoute s idStr b).1.body
      = .env .success (some (.product (applyPatch p d))) none none ∧
    findProduct (putProductRoute s idStr b).2.recs i = some (applyPatch p d) ∧
    (applyPatch p d).id = p.id ∧ (applyPatch p d).createdAt = p.createdAt ∧
    (d.name = none → (applyPatch p d).name = p.name) ∧
    (d.category = none → (applyPatch p d).category = p.category) ∧
    (d.price = none → (applyPatch p d).price = p.price) ∧
    (d.stock = none → (applyPatch p d).stock = p.stock) ∧
    (d.description = none → (applyPatch p d).description = p.description) ∧
    (∀ v, d.name = some v → (applyPatch p d).name = v) ∧
    (∀ v, d.category = some v → (applyPatch p d).category = v) ∧
    (∀ v, d.price = some v → (applyPatch p d).price = v) ∧
    (∀ v, d.stock = some v → (applyPatch p d).stock = v) ∧
    (∀ v, d.description = some v → (applyPatch p d).description = v) := by
  have hroute : putProductRoute s idStr b
      = (⟨200, .env .success (some (.product (applyPatch p d))) none none⟩,
        ⟨s.nextId, s.now, s.recs.map fun q => if q.id == i then applyPatch q d else q⟩) := by
    simp [putProductRoute, hparse, hid, productUpdateById, hfind]
  refine ⟨by rw [hroute], by rw [hroute], ?_, rfl, rfl, ?_, ?_, ?_, ?_, ?_, ?_, ?_, ?_, ?_, ?_⟩
  · rw [hroute]
    exact find?_map_applyPatch s.recs i d p hfind
  · intro h; simp [applyPatch, h]
  · intro h; simp [applyPatch, h]
  · intro h; simp [applyPatch, h]
  · intro h; simp [applyPatch, h]
  · intro h; simp [applyPatch, h]
  · intro v h; simp [applyPatch, h]
  · intro v h; simp [applyPatch, h]
  · intro v h; simp [applyPatch, h]
  · intro v h; simp [applyPatch, h]
  · intro v h; simp [applyPatch, h, Option.orElse]

/-- C5 witness: updating only the stock of a concrete product sets stock to 5
and leaves name, category and price unchanged. -/
theorem C5_update_frame_witness :
    (putProductRoute ⟨2, 5, [⟨1, "Widget", "Tools", 10, 7, none, 0⟩]⟩ "1"
      ⟨none, none, none, some 5, none⟩).1.code = 200 ∧
    findProduct (putProductRoute ⟨2, 5, [⟨1, "Widget", "Tools", 10, 7, none, 0⟩]⟩ "1"
      ⟨none, none, none, some 5, none⟩).2.recs 1
      = some ⟨1, "Widget", "Tools", 10, 5, none, 0⟩ := by
  have h := C5_update_frame ⟨2, 5, [⟨1, "Widget", "Tools", 10, 7, none, 0⟩]⟩ "1" 1
    ⟨none, none, none, some 5, none⟩ ⟨none, none, none, some 5, none⟩
    ⟨1, "Widget", "Tools", 10, 7, none, 0⟩ (by decide) (by decide) (by rfl)
  exact ⟨h.1, h.2.2.1⟩

/-- C4: the claim that every response of either resource is wrapped in the
uniform envelope is false: GET /api/users answers with the bare record array,
not an envelope. -/
theorem C4_counterexample :
    isEnvelope (getUsersRoute ⟨1, []⟩).1.body = false ∧
    (getUsersRoute ⟨1, []⟩).1.body = .rawUsers [] := by
  decide

/-- C4 amended: every product-route response body is wrapped in the uniform
envelope, but no user-route response body is: the user routes answer with
bare records, a bare Zod issue list, a bare error object, or an empty body. -/
theorem C4_amended_envelope :
    (∀ s : ProductStore, isEnvelope (getProductsRoute s).1.body = true) ∧
    (∀ s : ProductStore, isEnvelope (getStatsRoute s).1.body = true) ∧
    (∀ (s : ProductStore) (b : ProductBody),
      isEnvelope (postProductRoute s b).1.body = true) ∧
    (∀ (s : ProductStore) (idStr : String) (b : ProductBody),
      isEnvelope (putProductRoute s idStr b).1.body = true) ∧
    (∀ (s : ProductStore) (idStr : String),
      isEnvelope (deleteProductRoute s idStr).1.body = true) ∧
    (∀ s : UserStore, isEnvelope (getUsersRoute s).1.body = false) ∧
    (∀ (emailOk : String → Bool) (s : UserStore) (b : UserBody),
      isEnvelope (postUserRoute emailOk s b).1.body = false) ∧
    (∀ (emailOk : String → Bool) (s : UserStore) (idStr : String) (b : UserBody),
      isEnvelope (putUserRoute emailOk s idStr b).1.body = false) ∧
    (∀ (s : UserStore) (idStr : String),
      isEnvelope (deleteUserRoute s idStr).1.body = false) := by
  refine ⟨fun s => rfl, fun s => rfl, ?_, ?_, ?_, fun s => rfl, ?_, ?_, ?_⟩
  · intro s b
    cases h : productSchema b <;> simp [postProductRoute, h, isEnvelope]
  · intro s idStr b
    cases h : productSchemaUpd b with
    | error e => simp [putProductRoute, h, isEnvelope]
    | ok d =>
      cases hid : jsParseInt idStr with
      | none => simp [putProductRoute, h, hid, isEnvelope]
      | some i =>
        cases hu : productUpdateById s.recs i d with
        | none => simp [putProductRoute, h, hid, hu, isEnvelope]
        | some v => simp [putProductRoute, h, hid, hu, isEnvelope]
  · intro s idStr
    cases hid : jsParseInt idStr with
    | none => simp [deleteProductRoute, hid, isEnvelope]
    | some i =>
      cases hu : productDeleteById s.recs i with
      | none => simp [deleteProductRoute, hid, hu, isEnvelope]
      | some v => simp [deleteProductRoute, hid, hu, isEnvelope]
  · intro emailOk s b
    cases h : userSchema emailOk b <;> simp [postUserRoute, h, isEnvelope]
  · intro emailOk s idStr b
    cases hid : idSchema idStr with
    | error e => simp [putUserRoute, hid, isEnvelope]
    | ok i =>
      cases h : userSchema emailOk b with
      | error e => simp [putUserRoute, hid, h, isEnvelope]
      | ok d =>
        cases hu : userUpdateById s.recs i d with
        | none => simp [putUserRoute, hid, h, hu, isEnvelope]
        | some v => simp [putUserRoute, hid, h, hu, isEnvelope]
  · intro s idStr
    cases hid : idSchema idStr with
    | error e => simp [deleteUserRoute, hid, isEnvelope]
    | ok i =>
      cases hu : userDeleteById s.recs i with
      | none => simp [deleteUserRoute, hid, hu, isEnvelope]
      | some v => simp [deleteUserRoute, hid, hu, isEnvelope]

/-- C3: the claim that a non-integer :id yields 400 before any store access
for either resource is false: the product routes never validate :id, and
DELETE /api/products/abc answers 500, not 400. -/
theorem C3_counterexample :
    (deleteProductRoute ⟨1, 0, []⟩ "abc").1.code = 500 ∧
    ¬ (deleteProductRoute ⟨1, 0, []⟩ "abc").1.code = 400 := by
  decide

/-- C3 amended: only the user routes validate :id — a path parameter that
parseInt cannot read yields 400 with the Invalid ID issue and an unchanged
store; the product routes pass parseInt(id) (NaN) straight to the store
client, whose rejection surfaces as 500 (body validation still precedes it
on PUT), also with an unchanged store. -/
theorem C3_amended_id_validation :
    (∀ (emailOk : String → Bool) (s : UserStore) (idStr : String) (b : UserBody),
      jsParseInt idStr = none →
      (putUserRoute emailOk s idStr b).1.code = 400 ∧
      (putUserRoute emailOk s idStr b).1.body = .rawErrors [⟨["id"], "Invalid ID"⟩] ∧
      (putUserRoute emailOk s idStr b).2 = s) ∧
    (∀ (s : UserStore) (idStr : String),
      jsParseInt idStr = none →
      (deleteUserRoute s idStr).1.code = 400 ∧
      (deleteUserRoute s idStr).1.body = .rawErrors [⟨["id"], "Invalid ID"⟩] ∧
      (deleteUserRoute s idStr).2 = s) ∧
    (∀ (s : ProductStore) (idStr : String) (b : ProductBody) (d : ProductPatch),
      jsParseInt idStr = none → productSchemaUpd b = .ok d →
      (putProductRoute s idStr b).1.code = 500 ∧ (putProductRoute s idStr b).2 = s) ∧
    (∀ (s : ProductStore) (idStr : String),
      jsParseInt idStr = none →
      (deleteProductRoute s idStr).1.code = 500 ∧ (deleteProductRoute s idStr).2 = s) := by
  refine ⟨?_, ?_, ?_, ?_⟩
  · intro emailOk s idStr b hid
    refine ⟨?_, ?_, ?_⟩ <;> simp [putUserRoute, idSchema, hid]
  · intro s idStr hid
    refine ⟨?_, ?_, ?_⟩ <;> simp [deleteUserRoute, idSchema, hid]
  · intro s idStr b d hid hparse
    constructor <;> simp [putProductRoute, hparse, hid]
  · intro s idStr hid
    constructor <;> simp [deleteProductRoute, hid]

/-- C3 amended witness: concrete non-numeric ids on each route. -/
theorem C3_amended_id_validation_witness :
    (deleteUserRoute ⟨1, []⟩ "abc").1.code = 400 ∧
    (putUserRoute (fun _ => true) ⟨1, []⟩ "abc" ⟨some "a@b.c", none⟩).1.code = 400 ∧
    (putProductRoute ⟨1, 0, []⟩ "abc" ⟨none, none, none, none, none⟩).1.code = 500 ∧
    (deleteProductRoute ⟨1, 0, []⟩ "abc").1.code = 500 := by
  refine ⟨?_, ?_, ?_, ?_⟩
  · exact (C3_amended_id_validation.2.1 ⟨1, []⟩ "abc" (by decide)).1
  · exact (C3_amended_id_validation.1 (fun _ => true) ⟨1, []⟩ "abc"
      ⟨some "a@b.c", none⟩ (by decide)).1
  · exact (C3_amended_id_validation.2.2.1 ⟨1, 0, []⟩ "abc" ⟨none, none, none, none, none⟩
      ⟨none, none, none, none, none⟩ (by decide) (by rfl)).1
  · exact (C3_amended_id_validation.2.2.2 ⟨1, 0, []⟩ "abc" (by decide)).1

/-- C2: the claim that any subset of {email, name} passes validation on
PUT /api/users/:id is false: the handler runs the full userSchema, so a body
carrying only a name (email absent) is rejected with 400 even though the
record exists, for any email predicate. -/
theorem C2_counterexample :
    (putUserRoute (fun _ => true) ⟨2, [⟨1, "a@b.c", none⟩]⟩ "1" ⟨none, some "Bob"⟩).1.code = 400 ∧
    ¬ (putUserRoute (fun _ => true) ⟨2, [⟨1, "a@b.c", none⟩]⟩ "1" ⟨none, some "Bob"⟩).1.code = 200 := by
  decide

/-- Builds a successful full-schema user parse from its field conditions. -/
theorem userSchema_ok_of (emailOk : String → Bool) (b : UserBody) (e : String)
    (hb : b.email = some e) (hok : emailOk e = true)
    (hname : ∀ n, b.name = some n → 2 ≤ n.length) :
    userSchema emailOk b = .ok ⟨e, b.name⟩ := by
  have h1 : parseField "email" (checkEmail emailOk) id b.email = .ok e := by
    rw [hb]
    simp [parseField, checkEmail, hok]
  have h2 : parseFieldOpt checkUserName id b.name = .ok b.name := by
    cases hn : b.name with
    | none => rfl
    | some n =>
      have h3 : checkUserName n = [] := by
        have := hname n hn
        simp [checkUserName]
        omega
      simp [parseFieldOpt, h3]
  unfold userSchema
  rw [h1, h2]

/-- C2 amended: PUT /api/users/:id applies the full creation schema, not a
partial one.  A body without email is always rejected with 400 and the store
is untouched; a body whose email is supplied and accepted, and whose name, if
supplied, has length at least 2, passes validation, and on an existing id the
handler responds 200 with the record updated from exactly the supplied
fields (email replaced, name replaced only when supplied). -/
theorem C2_amended_email_required :
    (∀ (emailOk : String → Bool) (s : UserStore) (idStr : String) (b : UserBody),
      b.email = none →
      (putUserRoute emailOk s idStr b).1.code = 400 ∧
      (putUserRoute emailOk s idStr b).2 = s) ∧
    (∀ (emailOk : String → Bool) (s : UserStore) (idStr : String) (b : UserBody)
        (i : Int) (e : String) (u : UserRec),
      jsParseInt idStr = some i → b.email = some e → emailOk e = true →
      (∀ n, b.name = some n → 2 ≤ n.length) → findUser s.recs i = some u →
      (putUserRoute emailOk s idStr b).1.code = 200 ∧
      (putUserRoute emailOk s idStr b).1.body = .rawUser (applyUserData u ⟨e, b.name⟩) ∧
      (applyUserData u ⟨e, b.name⟩).email = e ∧
      (b.name = none → (applyUserData u ⟨e, b.name⟩).name = u.name) ∧
      (∀ n, b.name = some n → (applyUserData u ⟨e, b.name⟩).name = some n)) := by
  constructor
  · intro emailOk s idStr b hb
    have hno : ∀ d, userSchema emailOk b ≠ .ok d := by
      intro d h
      obtain ⟨he, _⟩ := userSchema_ok h
      obtain ⟨a, ha, _, _⟩ := parseField_ok he
      rw [hb] at ha
      cases ha
    cases hid : idSchema idStr with
    | error errs => constructor <;> simp [putUserRoute, hid]
    | ok i =>
      cases hu : userSchema emailOk b with
      | error errs => constructor <;> simp [putUserRoute, hid, hu]
      | ok d => exact absurd hu (hno d)
  · intro emailOk s idStr b i e u hid hb hok hname hfind
    have hu : userSchema emailOk b = .ok ⟨e, b.name⟩ := userSchema_ok_of emailOk b e hb hok hname
    have hroute : putUserRoute emailOk s idStr b
        = (⟨200, .rawUser (applyUserData u ⟨e, b.name⟩)⟩,
          ⟨s.nextId, s.recs.map fun v => if v.id == i then applyUserData v ⟨e, b.name⟩ else v⟩) := by
      simp [putUserRoute, idSchema, hid, hu, userUpdateById, hfind]
    refine ⟨by rw [hroute], by rw [hroute], rfl, ?_, ?_⟩
    · intro h; simp [applyUserData, h, Option.orElse]
    · intro n h; simp [applyUserData, h, Option.orElse]

/-- C2 amended witness: a concrete email-less body is rejected, and a
concrete body with a fresh email updates the record. -/
theorem C2_amended_email_required_witness :
    (putUserRoute (fun _ => true) ⟨2, [⟨1, "a@b.c", none⟩]⟩ "1" ⟨none, none⟩).1.code = 400 ∧
    (putUserRoute (fun _ => true) ⟨2, [⟨1, "a@b.c", none⟩]⟩ "1"
      ⟨some "new@b.c", none⟩).1.code = 200 := by
  constructor
  · exact (C2_amended_email_required.1 (fun _ => true) ⟨2, [⟨1, "a@b.c", none⟩]⟩ "1"
      ⟨none, none⟩ rfl).1
  · exact (C2_amended_email_required.2 (fun _ => true) ⟨2, [⟨1, "a@b.c", none⟩]⟩ "1"
      ⟨some "new@b.c", none⟩ 1 "new@b.c" ⟨1, "a@b.c", none⟩ (by decide) rfl rfl
      (by intro n h; cases h) (by decide)).1

/-- C1: the claim that a well-formed id with no persisted record yields 404
for both resources is false: the user routes never classify the Prisma
not-found error, so DELETE /api/users/1 on an empty store answers 500. -/
theorem C1_counterexample :
    (deleteUserRoute ⟨1, []⟩ "1").1.code = 500 ∧
    ¬ (deleteUserRoute ⟨1, []⟩ "1").1.code = 404 := by
  decide

/-- C1 amended: for the product resource a parsed id with no persisted record
yields 404 on PUT (once the body validates) and on DELETE, and repeating a
DELETE after a successful one yields 404; for the user resource the same
situation ends in the generic 500 branch, because its catch block only
classifies ZodError. -/
theorem C1_amended_not_found :
    (∀ (s : ProductStore) (idStr : String) (i : Int) (b : ProductBody) (d : ProductPatch),
      jsParseInt idStr = some i → findProduct s.recs i = none → productSchemaUpd b = .ok d →
      (putProductRoute s idStr b).1.code = 404 ∧ (putProductRoute s idStr b).2 = s) ∧
    (∀ (s : ProductStore) (idStr : String) (i : Int),
      jsParseInt idStr = some i → findProduct s.recs i = none →
      (deleteProductRoute s idStr).1.code = 404 ∧ (deleteProductRoute s idStr).2 = s) ∧
    (∀ (s : ProductStore) (idStr : String),
      (deleteProductRoute s idStr).1.code = 200 →
      (deleteProductRoute (deleteProductRoute s idStr).2 idStr).1.code = 404) ∧
    (∀ (emailOk : String → Bool) (s : UserStore) (idStr : String) (i : Int)
        (b : UserBody) (d : UserData),
      jsParseInt idStr = some i → findUser s.recs i = none → userSchema emailOk b = .ok d →
      (putUserRoute emailOk s idStr b).1.code = 500 ∧ (putUserRoute emailOk s idStr b).2 = s) ∧
    (∀ (s : UserStore) (idStr : String) (i : Int),
      jsParseInt idStr = some i → findUser s.recs i = none →
      (deleteUserRoute s idStr).1.code = 500 ∧ (deleteUserRoute s idStr).2 = s) := by
  refine ⟨?_, ?_, ?_, ?_, ?_⟩
  · intro s idStr i b d hid hfind hparse
    constructor <;> simp [putProductRoute, hparse, hid, productUpdateById, hfind]
  · intro s idStr i hid hfind
    constructor <;> simp [deleteProductRoute, hid, productDeleteById, hfind]
  · intro s idStr h200
    cases hid : jsParseInt idStr with
    | none => simp [deleteProductRoute, hid] at h200
    | some i =>
      cases hdel : productDeleteById s.recs i with
      | none => simp [deleteProductRoute, hid, hdel] at h200
      | some recs =>
        have hrecs : recs = s.recs.filter fun p => !(p.id == i) := by
          unfold productDeleteById at hdel
          cases hf : findProduct s.recs i <;> rw [hf] at hdel
          · cases hdel
          · cases hdel
            rfl
        have hstore : (deleteProductRoute s idStr).2 = ⟨s.nextId, s.now, recs⟩ := by
          simp [deleteProductRoute, hid, hdel]
        rw [hstore]
        have hnone : productDeleteById recs i = none := by
          unfold productDeleteById
          rw [hrecs, findProduct_filter_ne]
        simp [deleteProductRoute, hid, hnone]
  · intro emailOk s idStr i b d hid hfind hparse
    constructor <;> simp [putUserRoute, idSchema, hid, hparse, userUpdateById, hfind]
  · intro s idStr i hid hfind
    constructor <;> simp [deleteUserRoute, idSchema, hid, userDeleteById, hfind]

/-- C1 amended witness: concrete missing-id requests, and a concrete repeated
delete, on singleton and empty stores. -/
theorem C1_amended_not_found_witness :
    (deleteProductRoute ⟨1, 0, []⟩ "7").1.code = 404 ∧
    (putProductRoute ⟨1, 0, []⟩ "7" ⟨none, none, none, none, none⟩).1.code = 404 ∧
    (deleteProductRoute
      (deleteProductRoute ⟨2, 5, [⟨1, "Widget", "Tools", 10, 1, none, 0⟩]⟩ "1").2 "1").1.code = 404 ∧
    (deleteUserRoute ⟨1, []⟩ "7").1.code = 500 ∧
    (putUserRoute (fun _ => true) ⟨1, []⟩ "7" ⟨some "a@b.c", none⟩).1.code = 500 := by
  refine ⟨?_, ?_, ?_, ?_, ?_⟩
  · exact (C1_amended_not_found.2.1 ⟨1, 0, []⟩ "7" 7 (by decide) (by decide)).1
  · exact (C1_amended_not_found.1 ⟨1, 0, []⟩ "7" 7 ⟨none, none, none, none, none⟩
      ⟨none, none, none, none, none⟩ (by decide) (by decide) (by rfl)).1
  · exact C1_amended_not_found.2.2.1 ⟨2, 5, [⟨1, "Widget", "Tools", 10, 1, none, 0⟩]⟩ "1"
      (by decide)
  · exact (C1_amended_not_found.2.2.2.2 ⟨1, []⟩ "7" 7 (by decide) (by decide)).1
  · exact (C1_amended_not_found.2.2.2.1 (fun _ => true) ⟨1, []⟩ "7" 7 ⟨some "a@b.c", none⟩
      ⟨"a@b.c", none⟩ (by decide) (by decide) (by rfl)).1

/-- POST /api/products either leaves the store unchanged or appends the
validated, name-trimmed record. -/
theorem postProduct_recs_cases (s : ProductStore) (b : ProductBody) :
    (postProductRoute s b).2 = s ∨
    ∃ d, productSchema b = .ok d ∧ (postProductRoute s b).2.recs
      = s.recs ++ [⟨s.nextId, jsTrim d.name, d.category, d.price, d.stock,
        d.description, s.now⟩] := by
  cases hps : productSchema b with
  | error e =>
    left
    simp [postProductRoute, hps]
  | ok d =>
    right
    exact ⟨d, rfl, by simp [postProductRoute, hps]⟩

/-- PUT /api/products/:id either leaves the store unchanged or maps the
validated patch over the records matching the parsed id. -/
theorem putProduct_recs_cases (s : ProductStore) (idStr : String) (b : ProductBody) :
    (putProductRoute s idStr b).2 = s ∨
    ∃ (d : ProductPatch) (i : Int), productSchemaUpd b = .ok d ∧
      (putProductRoute s idStr b).2.recs
        = s.recs.map fun r => if r.id == i then applyPatch r d else r := by
  cases hps : productSchemaUpd b with
  | error e =>
    left
    simp [putProductRoute, hps]
  | ok d =>
    cases hid : jsParseInt idStr with
    | none =>
      left
      simp [putProductRoute, hps, hid]
    | some i =>
      cases hupd : productUpdateById s.recs i d with
      | none =>
        left
        simp [putProductRoute, hps, hid, hupd]
      | some v =>
        right
        refine ⟨d, i, rfl, ?_⟩
        have hv : v.2 = s.recs.map fun r => if r.id == i then applyPatch r d else r := by
          unfold productUpdateById at hupd
          cases hf : findProduct s.recs i <;> rw [hf] at hupd
          · cases hupd
          · rw [Option.some_inj] at hupd
            rw [← hupd]
        simp [putProductRoute, hps, hid, hupd, hv]

/-- DELETE /api/products/:id either leaves the store unchanged or filters out
the records matching the parsed id. -/
theorem deleteProduct_recs_cases (s : ProductStore) (idStr : String) :
    (deleteProductRoute s idStr).2 = s ∨
    ∃ i, (deleteProductRoute s idStr).2.recs
      = s.recs.filter fun p => !(p.id == i) := by
  cases hid : jsParseInt idStr with
  | none =>
    left
    simp [deleteProductRoute, hid]
  | some i =>
    cases hdel : productDeleteById s.recs i with
    | none =>
      left
      simp [deleteProductRoute, hid, hdel]
    | some recs =>
      right
      refine ⟨i, ?_⟩
      have hr : recs = s.recs.filter fun p => !(p.id == i) := by
        unfold productDeleteById at hdel
        cases hf : findProduct s.recs i <;> rw [hf] at hdel
        · cases hdel
        · rw [Option.some_inj] at hdel
          rw [← hdel]
      simp [deleteProductRoute, hid, hdel, hr]

/-- A merged record keeps price positive and stock nonnegative when the
patch's supplied values do and the old record does. -/
theorem applyPatch_good {d : ProductPatch}
    (hprice : ∀ v, d.price = some v → 0 < v)
    (hstock : ∀ v, d.stock = some v → 0 ≤ v)
    {r : ProductRec} (hr : 0 < r.price ∧ 0 ≤ r.stock) :
    0 < (applyPatch r d).price ∧ 0 ≤ (applyPatch r d).stock := by
  constructor
  · show 0 < d.price.getD r.price
    cases hv : d.price with
    | none => simpa using hr.1
    | some v => simpa using hprice v hv
  · show 0 ≤ d.stock.getD r.stock
    cases hv : d.stock with
    | none => simpa using hr.2
    | some v => simpa using hstock v hv

/-- C6: a creation or partial-update payload with price ≤ 0, or with a
negative or non-integral stock, is rejected with 400 and the store is
untouched; and all five product routes preserve the invariant that every
persisted record has price > 0 and stock ≥ 0. -/
theorem C6_price_stock_invariant :
    (∀ (s : ProductStore) (b : ProductBody) (pr : Rat),
      b.price = some pr → pr ≤ 0 →
      (postProductRoute s b).1.code = 400 ∧ (postProductRoute s b).2 = s) ∧
    (∀ (s : ProductStore) (b : ProductBody) (st : Rat),
      b.stock = some st → (st < 0 ∨ st.den ≠ 1) →
      (postProductRoute s b).1.code = 400 ∧ (postProductRoute s b).2 = s) ∧
    (∀ (s : ProductStore) (idStr : String) (b : ProductBody) (pr : Rat),
      b.price = some pr → pr ≤ 0 →
      (putProductRoute s idStr b).1.code = 400 ∧ (putProductRoute s idStr b).2 = s) ∧
    (∀ (s : ProductStore) (idStr : String) (b : ProductBody) (st : Rat),
      b.stock = some st → (st < 0 ∨ st.den ≠ 1) →
      (putProductRoute s idStr b).1.code = 400 ∧ (putProductRoute s idStr b).2 = s) ∧
    (∀ s : ProductStore, (∀ p ∈ s.recs, 0 < p.price ∧ 0 ≤ p.stock) →
      (∀ b, ∀ p ∈ (postProductRoute s b).2.recs, 0 < p.price ∧ 0 ≤ p.stock) ∧
      (∀ idStr b, ∀ p ∈ (putProductRoute s idStr b).2.recs, 0 < p.price ∧ 0 ≤ p.stock) ∧
      (∀ idStr, ∀ p ∈ (deleteProductRoute s idStr).2.recs, 0 < p.price ∧ 0 ≤ p.stock) ∧
      (∀ p ∈ (getProductsRoute s).2.recs, 0 < p.price ∧ 0 ≤ p.stock) ∧
      (∀ p ∈ (getStatsRoute s).2.recs, 0 < p.price ∧ 0 ≤ p.stock)) := by
  refine ⟨?_, ?_, ?_, ?_, ?_⟩
  · intro s b pr hb hle
    cases hps : productSchema b with
    | error e => constructor <;> simp [postProductRoute, hps]
    | ok d => exact absurd hps (productSchema_not_ok_of_price hb hle)
  · intro s b st hb hbad
    cases hps : productSchema b with
    | error e => constructor <;> simp [postProductRoute, hps]
    | ok d => exact absurd hps (productSchema_not_ok_of_stock hb hbad)
  · intro s idStr b pr hb hle
    cases hps : productSchemaUpd b with
    | error e => constructor <;> simp [putProductRoute, hps]
    | ok d => exact absurd hps (productSchemaUpd_not_ok_of_price hb hle)
  · intro s idStr b st hb hbad
    cases hps : productSchemaUpd b with
    | error e => constructor <;> simp [putProductRoute, hps]
    | ok d => exact absurd hps (productSchemaUpd_not_ok_of_stock hb hbad)
  · intro s hgood
    refine ⟨?_, ?_, ?_, hgood, hgood⟩
    · intro b p hp
      rcases postProduct_recs_cases s b with hsame | ⟨d, hps, hrecs⟩
      · rw [hsame] at hp
        exact hgood p hp
      · rw [hrecs] at hp
        rcases List.mem_append.mp hp with hmem | hnew
        · exact hgood p hmem
        · obtain ⟨hpr, hst, _⟩ := productSchema_ok_fields hps
          rcases List.mem_singleton.mp hnew with rfl
          exact ⟨hpr, hst⟩
    · intro idStr b p hp
      rcases putProduct_recs_cases s idStr b with hsame | ⟨d, i, hps, hrecs⟩
      · rw [hsame] at hp
        exact hgood p hp
      · rw [hrecs] at hp
        obtain ⟨r, hr, hpr⟩ := List.mem_map.mp hp
        obtain ⟨hdp, hds, _⟩ := productSchemaUpd_ok_fields hps
        rw [← hpr]
        by_cases hri : (r.id == i) = true
        · rw [if_pos hri]
          exact applyPatch_good hdp hds (hgood r hr)
        · rw [if_neg hri]
          exact hgood r hr
    · intro idStr p hp
      rcases deleteProduct_recs_cases s idStr with hsame | ⟨i, hrecs⟩
      · rw [hsame] at hp
        exact hgood p hp
      · rw [hrecs] at hp
        exact hgood p (List.mem_filter.mp hp).1

/-- C6 witness: a zero price and a negative stock are rejected on create and
update, and the invariant instance on a concrete good store. -/
theorem C6_price_stock_invariant_witness :
    (postProductRoute ⟨1, 0, []⟩ ⟨some "Widget", some "Tools", some 0, some 1, none⟩).1.code = 400 ∧
    (postProductRoute ⟨1, 0, []⟩ ⟨some "Widget", some "Tools", some 10, some (-1), none⟩).1.code = 400 ∧
    (putProductRoute ⟨1, 0, []⟩ "1" ⟨none, none, some (-3), none, none⟩).1.code = 400 ∧
    (putProductRoute ⟨1, 0, []⟩ "1" ⟨none, none, none, some (1/2), none⟩).1.code = 400 ∧
    (∀ p ∈ (postProductRoute ⟨2, 5, [⟨1, "Widget", "Tools", 10, 1, none, 0⟩]⟩
      ⟨some "Gadget", some "Tools", some 3, some 2, none⟩).2.recs, 0 < p.price ∧ 0 ≤ p.stock) := by
  refine ⟨?_, ?_, ?_, ?_, ?_⟩
  · exact (C6_price_stock_invariant.1 ⟨1, 0, []⟩
      ⟨some "Widget", some "Tools", some 0, some 1, none⟩ 0 rfl (by norm_num)).1
  · exact (C6_price_stock_invariant.2.1 ⟨1, 0, []⟩
      ⟨some "Widget", some "Tools", some 10, some (-1), none⟩ (-1) rfl
      (Or.inl (by norm_num))).1
  · exact (C6_price_stock_invariant.2.2.1 ⟨1, 0, []⟩ "1"
      ⟨none, none, some (-3), none, none⟩ (-3) rfl (by norm_num)).1
  · exact (C6_price_stock_invariant.2.2.2.1 ⟨1, 0, []⟩ "1"
      ⟨none, none, none, some (1/2), none⟩ (1/2) rfl (Or.inr (by norm_num))).1
  · exact ((C6_price_stock_invariant.2.2.2.2 ⟨2, 5, [⟨1, "Widget", "Tools", 10, 1, none, 0⟩]⟩
      (by decide)).1 ⟨some "Gadget", some "Tools", some 3, some 2, none⟩)

/-- C7: the claim that every persisted product name has length in [3,100] is
false: the name is trimmed only after validation, so POST with the name
"   " (three spaces) passes the min-3 length check and then persists the
empty string as the stored name. -/
theorem C7_counterexample :
    (postProductRoute ⟨1, 0, []⟩ ⟨some "   ", some "ab", some 1, some 0, none⟩).1.code = 201 ∧
    ((postProductRoute ⟨1, 0, []⟩ ⟨some "   ", some "ab", some 1, some 0, none⟩).2.recs.any
      (fun p => decide (p.name.length < 3))) = true := by
  decide

/-- C7 amended: the submitted name is validated to length [3,100] before the
trim, so the stored (trimmed) name has length at most 100 but can be shorter
than 3; names accepted by the partial-update schema are stored untrimmed with
length in [3,100]; and all mutating product routes preserve the upper bound
100 on every persisted name. -/
theorem C7_amended_name_bounds :
    (∀ (s : ProductStore) (b : ProductBody) (d : ProductData),
      productSchema b = .ok d →
      3 ≤ d.name.length ∧ d.name.length ≤ 100 ∧
      (postProductRoute s b).1.code = 201 ∧
      (postProductRoute s b).2.recs = s.recs ++ [⟨s.nextId, jsTrim d.name, d.category,
        d.price, d.stock, d.description, s.now⟩] ∧
      (jsTrim d.name).length ≤ 100) ∧
    (∀ (b : ProductBody) (d : ProductPatch) (n : String),
      productSchemaUpd b = .ok d → d.name = some n →
      3 ≤ n.length ∧ n.length ≤ 100) ∧
    (∀ s : ProductStore, (∀ p ∈ s.recs, p.name.length ≤ 100) →
      (∀ b, ∀ p ∈ (postProductRoute s b).2.recs, p.name.length ≤ 100) ∧
      (∀ idStr b, ∀ p ∈ (putProductRoute s idStr b).2.recs, p.name.length ≤ 100) ∧
      (∀ idStr, ∀ p ∈ (deleteProductRoute s idStr).2.recs, p.name.length ≤ 100)) := by
  refine ⟨?_, ?_, ?_⟩
  · intro s b d hps
    obtain ⟨_, _, h3, h100, _⟩ := productSchema_ok_fields hps
    refine ⟨h3, h100, ?_, ?_, le_trans (jsTrim_length_le d.name) h100⟩
    · simp [postProductRoute, hps]
    · simp [postProductRoute, hps]
  · intro b d n hps hn
    exact (productSchemaUpd_ok_fields hps).2.2 n hn
  · intro s hgood
    refine ⟨?_, ?_, ?_⟩
    · intro b p hp
      rcases postProduct_recs_cases s b with hsame | ⟨d, hps, hrecs⟩
      · rw [hsame] at hp
        exact hgood p hp
      · rw [hrecs] at hp
        rcases List.mem_append.mp hp with hmem | hnew
        · exact hgood p hmem
        · obtain ⟨_, _, _, h100, _⟩ := productSchema_ok_fields hps
          rcases List.mem_singleton.mp hnew with rfl
          exact le_trans (jsTrim_length_le d.name) h100
    · intro idStr b p hp
      rcases putProduct_recs_cases s idStr b with hsame | ⟨d, i, hps, hrecs⟩
      · rw [hsame] at hp
        exact hgood p hp
      · rw [hrecs] at hp
        obtain ⟨r, hr, hpr⟩ := List.mem_map.mp hp
        rw [← hpr]
        by_cases hri : (r.id == i) = true
        · rw [if_pos hri]
          show (d.name.getD r.name).length ≤ 100
          cases hn : d.name with
          | none => simpa using hgood r hr
          | some n =>
            have := ((productSchemaUpd_ok_fields hps).2.2 n hn).2
            simpa using this
        · rw [if_neg hri]
          exact hgood r hr
    · intro idStr p hp
      rcases deleteProduct_recs_cases s idStr with hsame | ⟨i, hrecs⟩
      · rw [hsame] at hp
        exact hgood p hp
      · rw [hrecs] at hp
        exact hgood p (List.mem_filter.mp hp).1

/-- C7 amended witness: a concrete accepted creation whose trimmed name stays
within the upper bound, instantiating the name-bounds conjunct. -/
theorem C7_amended_name_bounds_witness :
    (postProductRoute ⟨1, 0, []⟩ ⟨some "Widget", some "Tools", some 10, some 1, none⟩).1.code = 201 ∧
    (jsTrim "Widget").length ≤ 100 := by
  have h := C7_amended_name_bounds.1 ⟨1, 0, []⟩
    ⟨some "Widget", some "Tools", some 10, some 1, none⟩
    ⟨"Widget", "Tools", 10, 1, none⟩ (by rfl)
  exact ⟨h.2.2.1, h.2.2.2.2⟩
